import Mathlib

/-!
Verification of the natural-language specification of the land-portfolio-analyzer
repository (`app.py`) against a shallow embedding of its code.

The embedding models:
* pandas cell values (`Value`): NaN/None, strings, and numbers (floats as rationals);
* a dataframe row (`PdRow`) as an association list from column names to values;
* a dataframe (`Table`) as a column-name list plus a list of rows;
* the row-wise computations of `app.py`: `calc_price_reductions`,
  `calculate_days_held`, `check_missing_information`, the county normalization,
  the derived financial ratio columns of `process_data`, the PDF cell formatters
  of `generate_inventory_report_pdf`, the status ordering of
  `display_hierarchy_breakdown`, and the missing-fields parsing of
  `generate_missing_fields_checklist_pdf`.

Machine floats are modelled as `ℚ`; `pd.to_datetime` timestamps are modelled as
rational day counts, with the date parser passed as an explicit parameter since
`app.py` delegates parsing to pandas.
-/

namespace LandPortfolio

/-- A pandas cell value: `null` models NaN/None, `str` a Python string,
`num` a Python number (floats modelled as rationals). -/
inductive Value where
  | null : Value
  | str (s : String) : Value
  | num (q : ℚ) : Value
deriving DecidableEq

/-- A dataframe row, as seen by `df.apply(..., axis=1)`: an association list
from column names to cell values.  A key absent from the list models a column
absent from `row.index`. -/
abbrev PdRow := List (String × Value)

/-- `row[k]` / `row.get(k)`: the first value stored under key `k`, if any. -/
def getCell : PdRow → String → Option Value
  | [], _ => none
  | p :: rest, k => if p.1 = k then some p.2 else getCell rest k

/-- `k in row.index`: whether column `k` is present in the row. -/
def hasKey (r : PdRow) (k : String) : Bool := (getCell r k).isSome

/-- Assignment `row[k] = v`: replaces the value under `k`, or appends the
binding when the column is new. -/
def setCell : PdRow → String → Value → PdRow
  | [], k, v => [(k, v)]
  | p :: rest, k, v => if p.1 = k then (k, v) :: rest else p :: setCell rest k v

/-- Reading a coerced numeric cell as a rational; non-numeric cells read as 0.
After `pd.to_numeric(...).fillna(0)` every cell of a coerced column is `num`. -/
def getNum (r : PdRow) (k : String) : ℚ :=
  match getCell r k with
  | some (Value.num q) => q
  | _ => 0

/-- The `required_fields` dict of `check_missing_information` (app.py lines 39-57),
in source order: internal column key paired with the human-readable label. -/
def requiredFields : List (String × String) :=
  [("custom.All_APN", "APN"),
   ("custom.All_Asset_Surveyed_Acres", "Surveyed Acres"),
   ("custom.All_County", "County"),
   ("custom.All_RemarkableLand_URL", "RemarkableLand URL"),
   ("custom.All_State", "State"),
   ("custom.Asset_Cost_Basis", "Cost Basis"),
   ("custom.Asset_Date_Purchased", "Date Purchased"),
   ("custom.Asset_Original_Listing_Price", "Original Listing Price"),
   ("custom.Asset_Land_ID_Internal_URL", "Land ID Internal URL"),
   ("custom.Asset_Land_ID_Share_URL", "Land ID Share URL"),
   ("custom.Asset_MLS#", "MLS#"),
   ("custom.Asset_MLS_Listing_Date", "MLS Listing Date"),
   ("custom.Asset_Street_Address", "Street Address"),
   ("custom.Asset_Last_Mapping_Audit", "Last Map Audit"),
   ("custom.Asset_Owner", "Owner"),
   ("custom.Asset_Listing_Type", "Listing Type"),
   ("avg_one_time_active_opportunity_value", "Avg One Time Active Opportunity Value")]

/-- The per-field missing test of `check_missing_information` (app.py lines 64-70).
For `custom.Asset_Cost_Basis`: `pd.isna(value) or value == '' or value == 0`.
For every other field: `pd.isna(value) or value == '' or value == 'Unknown'
or value == 'Unknown County'`. -/
def isMissingValue (k : String) (v : Value) : Bool :=
  if k = "custom.Asset_Cost_Basis" then
    v == Value.null || v == Value.str "" || v == Value.num 0
  else
    v == Value.null || v == Value.str "" || v == Value.str "Unknown" ||
      v == Value.str "Unknown County"

/-- The `missing_fields` list built by the loop of `check_missing_information`
(app.py lines 59-72): labels of required fields whose column is absent from the
row or whose value fails the per-field missing test, in `required_fields` order. -/
def missingList (row : PdRow) : List String :=
  requiredFields.filterMap fun fk =>
    match getCell row fk.1 with
    | some value => if isMissingValue fk.1 value then some fk.2 else none
    | none => some fk.2

/-- `", ".join(l)` at the character level. -/
def joinSepChars : List (List Char) → List Char
  | [] => []
  | [a] => a
  | a :: b :: rest => a ++ ',' :: ' ' :: joinSepChars (b :: rest)

/-- `", ".join(missing_fields)` (app.py line 77). -/
def joinSepStr (l : List String) : String := String.mk (joinSepChars (l.map String.data))

/-- `check_missing_information` (app.py lines 37-77): returns `"✅ Complete"`
when no required field is missing, otherwise `"❌ Missing: "` followed by the
comma-separated labels of the missing fields. -/
def check_missing_information (row : PdRow) : String :=
  let missing_fields := missingList row
  if missing_fields.isEmpty then "✅ Complete"
  else "❌ Missing: " ++ joinSepStr missing_fields

/-- Python `int(q)` on a float: truncation toward zero.  `Int.tdiv` truncates
toward zero and a rational's denominator is positive. -/
def ratTrunc (q : ℚ) : ℤ := Int.tdiv q.num q.den

/-- The `reduction_map` dict lookup `reduction_map.get(trailing_digit, 0)`
(app.py lines 114-115). -/
def reduction_map (d : ℕ) : ℕ :=
  if d = 9 then 0 else if d = 8 then 1 else if d = 7 then 2 else if d = 6 then 3
  else if d = 5 then 4 else if d = 4 then 5 else if d = 3 then 6 else if d = 2 then 7
  else if d = 1 then 8 else if d = 0 then 9 else 0

/-- `calc_price_reductions` (app.py lines 109-117).  The input is the numeric
price cell (`none` models NaN).  `int(str(int(price))[-1])` is the last decimal
digit of the truncated price, i.e. `|int(price)| % 10` (the last character of
the string of a negative integer is still a digit). -/
def calc_price_reductions (price : Option ℚ) : ℕ :=
  match price with
  | none => 0
  | some p =>
    if p = 0 then 0
    else reduction_map ((ratTrunc p).natAbs % 10)

/-- `calculate_days_held` (app.py lines 23-35).  `now` is `datetime.now()` and
`parseDate` models `pd.to_datetime` (both measured in days, `none` = parse
error, i.e. the `except` path).  A missing column or NaN cell returns `None`;
otherwise the result is `(now - purchase_dt).days`, which Python computes as
the floor of the elapsed time in days. -/
def calculate_days_held (now : ℚ) (parseDate : Value → Option ℚ)
    (cell : Option Value) : Option ℤ :=
  match cell with
  | none => none
  | some Value.null => none
  | some v =>
    match parseDate v with
    | none => none
    | some t => some ⌊now - t⌋

/-- Python `str.title()` scanner (ASCII letters): an alphabetic character is
uppercased when the previous character is not alphabetic and lowercased
otherwise; other characters pass through. -/
def pyTitleAux : Bool → List Char → List Char
  | _, [] => []
  | prevAlpha, c :: rest =>
    (if c.isAlpha then (if prevAlpha then c.toLower else c.toUpper) else c) ::
      pyTitleAux c.isAlpha rest

/-- Python `str.title()`. -/
def pyTitle (s : String) : String := String.mk (pyTitleAux false s.data)

/-- Python `str(value)` as used by `.astype(str)` on the county column.  County
cells are strings in practice; the numeric branch models CPython float
formatting only for integral floats (no claim exercises it). -/
def valueToStr (v : Value) : String :=
  match v with
  | Value.null => "nan"
  | Value.str s => s
  | Value.num q => if q.den = 1 then toString q.num ++ ".0" else toString q

/-- The county cell transform of `process_data` (app.py lines 86-87):
`fillna('Unknown County')` followed by `.astype(str).str.title()`.
A `none` argument (cell structurally absent) behaves like NaN. -/
def countyCell (v : Option Value) : Value :=
  Value.str (pyTitle (valueToStr
    (match v with
     | none => Value.str "Unknown County"
     | some Value.null => Value.str "Unknown County"
     | some w => w)))

/-- Decimal digits to a natural number, `none` when empty or non-digit. -/
def natOfDigits (cs : List Char) : Option ℕ :=
  if cs ≠ [] ∧ cs.all Char.isDigit then
    some (cs.foldl (fun n c => 10 * n + (c.toNat - 48)) 0)
  else none

/-- A basic model of the numeric-string parsing of `pd.to_numeric`:
an optional sign, an integer part, and an optional fractional part. -/
def parseDec (s : String) : Option ℚ :=
  let core : List Char → Option ℚ := fun body =>
    match body.splitOn '.' with
    | [ip] => (natOfDigits ip).map fun n => (n : ℚ)
    | [ip, fp] =>
      match natOfDigits ip, natOfDigits fp with
      | some n, some f => some ((n : ℚ) + (f : ℚ) / (10 : ℚ) ^ fp.length)
      | _, _ => none
    | _ => none
  match s.data with
  | '-' :: rest => (core rest).map fun q => -q
  | l => core l

/-- `pd.to_numeric(col, errors='coerce').fillna(0)` on one cell (app.py line 102):
numbers pass through, numeric strings parse, everything else (NaN, non-numeric
strings, absent cells) becomes 0. -/
def toNumericQ (v : Option Value) : ℚ :=
  match v with
  | some (Value.num q) => q
  | some (Value.str s) => (parseDec s).getD 0
  | _ => 0

/-- The numeric price cell as the `Option ℚ` input of `calc_price_reductions`:
a `num` cell is a number, anything else reads as NaN. -/
def numCellQ (v : Option Value) : Option ℚ :=
  match v with
  | some (Value.num q) => some q
  | _ => none

/-- The `numeric_columns` list of `process_data` (app.py lines 93-98). -/
def numeric_columns : List String :=
  ["primary_opportunity_value", "custom.Asset_Cost_Basis",
   "custom.All_Asset_Surveyed_Acres", "custom.Asset_Original_Listing_Price"]

/-- App.py lines 85-87: normalize the county column when it is present. -/
def countyStepRow (cols : List String) (r : PdRow) : PdRow :=
  if cols.contains "custom.All_County" then
    setCell r "custom.All_County" (countyCell (getCell r "custom.All_County"))
  else r

/-- App.py line 90: `processed_df['days_held'] = processed_df.apply(calculate_days_held, axis=1)`. -/
def daysStepRow (now : ℚ) (parseDate : Value → Option ℚ) (r : PdRow) : PdRow :=
  setCell r "days_held"
    (match calculate_days_held now parseDate (getCell r "custom.Asset_Date_Purchased") with
     | none => Value.null
     | some d => Value.num d)

/-- App.py lines 100-102: coerce each present numeric column. -/
def numericStepRow (cols : List String) (r : PdRow) : PdRow :=
  numeric_columns.foldl
    (fun r2 c =>
      if cols.contains c then setCell r2 c (Value.num (toNumericQ (getCell r2 c))) else r2)
    r

/-- App.py lines 105-119: default `price_reductions` to 0, then apply
`calc_price_reductions` to the price column when it is present. -/
def priceStepRow (cols : List String) (r : PdRow) : PdRow :=
  let r1 := setCell r "price_reductions" (Value.num 0)
  if cols.contains "primary_opportunity_value" then
    setCell r1 "price_reductions"
      (Value.num (calc_price_reductions (numCellQ (getCell r1 "primary_opportunity_value"))))
  else r1

/-- App.py lines 125-136: `current_margin` and `current_margin_pct`, the latter
written only on the `primary_opportunity_value != 0` mask. -/
def marginStepRow (cols : List String) (r : PdRow) : PdRow :=
  let r1 := setCell r "current_margin" (Value.num 0)
  let r2 := setCell r1 "current_margin_pct" (Value.num 0)
  if cols.contains "primary_opportunity_value" && cols.contains "custom.Asset_Cost_Basis" then
    let r3 := setCell r2 "current_margin"
      (Value.num (getNum r2 "primary_opportunity_value" - getNum r2 "custom.Asset_Cost_Basis"))
    if getNum r3 "primary_opportunity_value" ≠ 0 then
      setCell r3 "current_margin_pct"
        (Value.num (getNum r3 "current_margin" / getNum r3 "primary_opportunity_value" * 100))
    else r3
  else r2

/-- App.py lines 139-147: `price_per_acre`, written only on the
`custom.All_Asset_Surveyed_Acres != 0` mask. -/
def ppaStepRow (cols : List String) (r : PdRow) : PdRow :=
  let r1 := setCell r "price_per_acre" (Value.num 0)
  if cols.contains "primary_opportunity_value" && cols.contains "custom.All_Asset_Surveyed_Acres" then
    if getNum r1 "custom.All_Asset_Surveyed_Acres" ≠ 0 then
      setCell r1 "price_per_acre"
        (Value.num (getNum r1 "primary_opportunity_value" / getNum r1 "custom.All_Asset_Surveyed_Acres"))
    else r1
  else r1

/-- App.py lines 150-159: `markup_percentage`, written only on the
`custom.Asset_Cost_Basis != 0` mask. -/
def markupStepRow (cols : List String) (r : PdRow) : PdRow :=
  let r1 := setCell r "markup_percentage" (Value.num 0)
  if cols.contains "primary_opportunity_value" && cols.contains "custom.Asset_Cost_Basis" then
    if getNum r1 "custom.Asset_Cost_Basis" ≠ 0 then
      setCell r1 "markup_percentage"
        (Value.num ((getNum r1 "primary_opportunity_value" - getNum r1 "custom.Asset_Cost_Basis") /
          getNum r1 "custom.Asset_Cost_Basis" * 100))
    else r1
  else r1

/-- App.py lines 162-170: `cost_basis_per_acre`, written only on the
`custom.All_Asset_Surveyed_Acres != 0` mask. -/
def cbpaStepRow (cols : List String) (r : PdRow) : PdRow :=
  let r1 := setCell r "cost_basis_per_acre" (Value.num 0)
  if cols.contains "custom.Asset_Cost_Basis" && cols.contains "custom.All_Asset_Surveyed_Acres" then
    if getNum r1 "custom.All_Asset_Surveyed_Acres" ≠ 0 then
      setCell r1 "cost_basis_per_acre"
        (Value.num (getNum r1 "custom.Asset_Cost_Basis" / getNum r1 "custom.All_Asset_Surveyed_Acres"))
    else r1
  else r1

/-- App.py lines 173-182: `percent_of_initial_listing`, written only on the
`custom.Asset_Original_Listing_Price != 0` mask. -/
def polpStepRow (cols : List String) (r : PdRow) : PdRow :=
  let r1 := setCell r "percent_of_initial_listing" (Value.num 0)
  if cols.contains "primary_opportunity_value" && cols.contains "custom.Asset_Original_Listing_Price" then
    if getNum r1 "custom.Asset_Original_Listing_Price" ≠ 0 then
      setCell r1 "percent_of_initial_listing"
        (Value.num (getNum r1 "primary_opportunity_value" / getNum r1 "custom.Asset_Original_Listing_Price" * 100))
    else r1
  else r1

/-- App.py line 185: `processed_df['missing_information'] = processed_df.apply(check_missing_information, axis=1)`. -/
def missingStepRow (r : PdRow) : PdRow :=
  setCell r "missing_information" (Value.str (check_missing_information r))

/-- The whole per-row pipeline of `process_data` (app.py lines 85-185), in
source order.  `cols` is the column set of the uploaded dataframe: every
column-presence test of `process_data` checks only uploaded columns, so it is
constant along the pipeline. -/
def processRow (cols : List String) (now : ℚ) (parseDate : Value → Option ℚ)
    (r : PdRow) : PdRow :=
  missingStepRow (polpStepRow cols (cbpaStepRow cols (markupStepRow cols
    (ppaStepRow cols (marginStepRow cols (priceStepRow cols (numericStepRow cols
      (daysStepRow now parseDate (countyStepRow cols r)))))))))

/-- A dataframe: its column names and its rows. -/
structure Table where
  cols : List String
  rows : List PdRow
deriving DecidableEq

/-- Column-name bookkeeping for a column assignment. -/
def addColName (cols : List String) (c : String) : List String :=
  if cols.contains c then cols else cols ++ [c]

/-- The columns added by `process_data`, in assignment order. -/
def processCols (cols : List String) : List String :=
  ["days_held", "price_reductions", "current_margin", "current_margin_pct",
   "price_per_acre", "markup_percentage", "cost_basis_per_acre",
   "percent_of_initial_listing", "missing_information"].foldl addColName cols

/-- `process_data` applied to the copied dataframe (app.py lines 82-187). -/
def processTable (now : ℚ) (parseDate : Value → Option ℚ) (t : Table) : Table :=
  { cols := processCols t.cols
    rows := t.rows.map (processRow t.cols now parseDate) }

/-- The local state of `process_data`: the function argument `df` and the
working copy `processed_df`. -/
structure PDState where
  df : Table
  processed : Table
deriving DecidableEq

/-- `process_data` (app.py lines 79-187) as a state transformer: line 82 copies
the input (`processed_df = df.copy()`, a deep copy), and every subsequent
assignment of the function body targets `processed_df` only. -/
def process_data (now : ℚ) (parseDate : Value → Option ℚ) (df : Table) : PDState :=
  let s : PDState := { df := df, processed := df }
  { s with processed := processTable now parseDate s.processed }

/-- The fixed `status_order` list (app.py line 234). -/
def status_order : List String := ["Purchased", "Listed", "Under Contract", "Off Market"]

/-- `ordered_statuses` (app.py line 236):
`[status for status in status_order if status in available_statuses]`. -/
def ordered_statuses (available_statuses : List String) : List String :=
  status_order.filter fun s => available_statuses.contains s

/-- Python's rounding to an integer (`.0f` format): round half to even.
`f = Int.fdiv q.num q.den` is `⌊q⌋` and `r = q.num - f * q.den` its remainder,
so the fractional part `q - f` compares with `1/2` as `2 * r` with `q.den`. -/
def pyRound (q : ℚ) : ℤ :=
  let f := Int.fdiv q.num q.den
  let r := q.num - f * q.den
  if 2 * r < (q.den : ℤ) then f
  else if (q.den : ℤ) < 2 * r then f + 1
  else if 2 ∣ f then f else f + 1

/-- Thousands grouping: given the reversed digit list, insert `','` after every
third digit (`k` counts digits already emitted). -/
def commaGroupAux : ℕ → List Char → List Char
  | _, [] => []
  | k, c :: rest =>
    if k ≠ 0 ∧ k % 3 = 0 then ',' :: c :: commaGroupAux (k + 1) rest
    else c :: commaGroupAux (k + 1) rest

/-- The digits of an integer with thousands separators and sign,
i.e. Python `f"{n:,}"` on an integer. -/
def commaChars (n : ℤ) : List Char :=
  (if n < 0 then ['-'] else []) ++ (commaGroupAux 0 (toString n.natAbs).data.reverse).reverse

/-- Python `f"${x:,.0f}"`: dollar sign, then the half-even-rounded value with
thousands separators. -/
def fmtCurrency (q : ℚ) : String := String.mk ('$' :: commaChars (pyRound q))

/-- Python `f"{x:.0f}%"`: the half-even-rounded value followed by a percent sign. -/
def fmtPct (q : ℚ) : String := String.mk ((toString (pyRound q)).data ++ ['%'])

/-- App.py line 542: `cost_basis` cell text — currency when present and positive,
otherwise `'N/A'`.  (`row.get` values are `Option ℚ`, `none` = NaN.) -/
def fmt_cost_basis (v : Option ℚ) : String :=
  match v with
  | some q => if q > 0 then fmtCurrency q else "N/A"
  | none => "N/A"

/-- App.py line 543: `asking_price` cell text. -/
def fmt_asking_price (v : Option ℚ) : String :=
  match v with
  | some q => if q > 0 then fmtCurrency q else "N/A"
  | none => "N/A"

/-- App.py line 544: `profit_margin` cell text — currency whenever the value is
present (no positivity test). -/
def fmt_profit_margin (v : Option ℚ) : String :=
  match v with
  | some q => fmtCurrency q
  | none => "N/A"

/-- App.py line 545: `margin_pct` cell text — percent whenever the value is
present (no positivity test). -/
def fmt_margin_pct (v : Option ℚ) : String :=
  match v with
  | some q => fmtPct q
  | none => "N/A"

/-- App.py line 546: `markup` cell text — percent whenever the value is present
(no positivity test). -/
def fmt_markup (v : Option ℚ) : String :=
  match v with
  | some q => fmtPct q
  | none => "N/A"

/-- App.py line 547: `price_per_acre` cell text. -/
def fmt_price_per_acre (v : Option ℚ) : String :=
  match v with
  | some q => if q > 0 then fmtCurrency q else "N/A"
  | none => "N/A"

/-- App.py line 548: `cost_per_acre` cell text. -/
def fmt_cost_per_acre (v : Option ℚ) : String :=
  match v with
  | some q => if q > 0 then fmtCurrency q else "N/A"
  | none => "N/A"

/-- App.py line 549: `original_price` cell text. -/
def fmt_original_price (v : Option ℚ) : String :=
  match v with
  | some q => if q > 0 then fmtCurrency q else "N/A"
  | none => "N/A"

/-- App.py line 550: `percent_olp` cell text — percent whenever the value is
present (no positivity test). -/
def fmt_percent_olp (v : Option ℚ) : String :=
  match v with
  | some q => fmtPct q
  | none => "N/A"

/-- Python `s.split(sep)` for a one-character separator, at the character
level: `cur` is the chunk currently being accumulated. -/
def charSplitAux (sep : Char) (cur : List Char) : List Char → List (List Char)
  | [] => [cur]
  | c :: rest =>
    if c = sep then cur :: charSplitAux sep [] rest
    else charSplitAux sep (cur ++ [c]) rest

/-- Python `s.split(sep)` for a one-character separator. -/
def charSplit (sep : Char) (l : List Char) : List (List Char) := charSplitAux sep [] l

/-- Python `s.strip()`: drop whitespace from both ends. -/
def trimChars (l : List Char) : List Char :=
  ((l.dropWhile Char.isWhitespace).reverse.dropWhile Char.isWhitespace).reverse

/-- Python `s.replace(pat, repl)`: replace every non-overlapping occurrence of
`pat`, scanning left to right. -/
def pyReplaceChars (pat repl : List Char) : List Char → List Char
  | [] => []
  | c :: rest =>
    if pat ≠ [] ∧ pat.isPrefixOf (c :: rest) then
      repl ++ pyReplaceChars pat repl (rest.drop (pat.length - 1))
    else c :: pyReplaceChars pat repl rest
termination_by l => l.length
decreasing_by
  · simp only [List.length_drop, List.length_cons]
    omega
  · simp only [List.length_cons]
    omega

/-- The missing-fields parsing of `generate_missing_fields_checklist_pdf`
(app.py lines 1176-1178): on the `'❌ Missing: '` prefix, strip it with
`str.replace`, split on `','` and strip each piece. -/
def parse_missing_info (missing_info : String) : Option (List String) :=
  if "❌ Missing: ".data.isPrefixOf missing_info.data then
    some ((charSplit ',' (pyReplaceChars "❌ Missing: ".data [] missing_info.data)).map
      fun cs => String.mk (trimChars cs))
  else none

/-- "Not-applicable or non-positive": the input cell is NaN or holds a
non-positive value. -/
def optNonPos (v : Option ℚ) : Prop := ∀ q : ℚ, v = some q → q ≤ 0

/-- Column set of the end-to-end derivation scenario: the four numeric inputs. -/
def c6cols : List String :=
  ["primary_opportunity_value", "custom.Asset_Cost_Basis",
   "custom.All_Asset_Surveyed_Acres", "custom.Asset_Original_Listing_Price"]

/-- The end-to-end derivation scenario record: cost basis 100000, asking price
150000, 50 acres, original listing price 180000. -/
def c6row : PdRow :=
  [("primary_opportunity_value", Value.num 150000),
   ("custom.Asset_Cost_Basis", Value.num 100000),
   ("custom.All_Asset_Surveyed_Acres", Value.num 50),
   ("custom.Asset_Original_Listing_Price", Value.num 180000)]

/-- A record with every required field present and properly filled except that
`custom.Asset_Cost_Basis` holds the placeholder string `"Unknown"`. -/
def recC2 : PdRow :=
  [("custom.All_APN", Value.str "12-345"),
   ("custom.All_Asset_Surveyed_Acres", Value.num 40),
   ("custom.All_County", Value.str "Travis"),
   ("custom.All_RemarkableLand_URL", Value.str "https://remarkableland.com/p/1"),
   ("custom.All_State", Value.str "TX"),
   ("custom.Asset_Cost_Basis", Value.str "Unknown"),
   ("custom.Asset_Date_Purchased", Value.str "2024-01-02"),
   ("custom.Asset_Original_Listing_Price", Value.num 180000),
   ("custom.Asset_Land_ID_Internal_URL", Value.str "https://id.land/internal/1"),
   ("custom.Asset_Land_ID_Share_URL", Value.str "https://id.land/share/1"),
   ("custom.Asset_MLS#", Value.str "MLS-1"),
   ("custom.Asset_MLS_Listing_Date", Value.str "2024-02-03"),
   ("custom.Asset_Street_Address", Value.str "1 Main St"),
   ("custom.Asset_Last_Mapping_Audit", Value.str "2024-03-04"),
   ("custom.Asset_Owner", Value.str "Remarkable Land LLC"),
   ("custom.Asset_Listing_Type", Value.str "Primary"),
   ("avg_one_time_active_opportunity_value", Value.num 5)]

theorem getCell_setCell_self (r : PdRow) (k : String) (v : Value) :
    getCell (setCell r k v) k = some v := by
  induction r with
  | nil => simp [setCell, getCell]
  | cons p rest ih =>
    by_cases h : p.1 = k
    · simp [setCell, h, getCell]
    · simp [setCell, h, getCell, ih]

theorem getCell_setCell_ne {r : PdRow} {k k' : String} {v : Value} (h : k' ≠ k) :
    getCell (setCell r k v) k' = getCell r k' := by
  have hk : ¬k = k' := fun hh => h hh.symm
  induction r with
  | nil => simp [setCell, getCell, hk]
  | cons p rest ih =>
    by_cases hp : p.1 = k
    · subst hp
      simp [setCell, getCell, hk]
    · simp [setCell, hp, getCell, ih]

theorem getNum_setCell_ne {r : PdRow} {k k' : String} {v : Value} (h : k' ≠ k) :
    getNum (setCell r k v) k' = getNum r k' := by
  simp [getNum, getCell_setCell_ne h]

theorem getCell_countyStepRow_ne {cols : List String} {r : PdRow} {c : String}
    (h : c ≠ "custom.All_County") :
    getCell (countyStepRow cols r) c = getCell r c := by
  unfold countyStepRow
  split <;> simp [getCell_setCell_ne h]

theorem getCell_daysStepRow_ne {now : ℚ} {pd : Value → Option ℚ} {r : PdRow} {c : String}
    (h : c ≠ "days_held") :
    getCell (daysStepRow now pd r) c = getCell r c := by
  unfold daysStepRow
  simp [getCell_setCell_ne h]

theorem getCell_numericStepRow_ne {cols : List String} {r : PdRow} {c : String}
    (h1 : c ≠ "primary_opportunity_value") (h2 : c ≠ "custom.Asset_Cost_Basis")
    (h3 : c ≠ "custom.All_Asset_Surveyed_Acres") (h4 : c ≠ "custom.Asset_Original_Listing_Price") :
    getCell (numericStepRow cols r) c = getCell r c := by
  unfold numericStepRow numeric_columns
  simp only [List.foldl_cons, List.foldl_nil]
  split <;> split <;> split <;> split <;>
    simp [getCell_setCell_ne h1, getCell_setCell_ne h2, getCell_setCell_ne h3,
      getCell_setCell_ne h4]

theorem getCell_priceStepRow_ne {cols : List String} {r : PdRow} {c : String}
    (h : c ≠ "price_reductions") :
    getCell (priceStepRow cols r) c = getCell r c := by
  unfold priceStepRow
  split <;> simp [getCell_setCell_ne h]

theorem getCell_marginStepRow_ne {cols : List String} {r : PdRow} {c : String}
    (h1 : c ≠ "current_margin") (h2 : c ≠ "current_margin_pct") :
    getCell (marginStepRow cols r) c = getCell r c := by
  simp only [marginStepRow]
  split_ifs <;> simp [getCell_setCell_ne h1, getCell_setCell_ne h2]

theorem getCell_ppaStepRow_ne {cols : List String} {r : PdRow} {c : String}
    (h : c ≠ "price_per_acre") :
    getCell (ppaStepRow cols r) c = getCell r c := by
  simp only [ppaStepRow]
  split_ifs <;> simp [getCell_setCell_ne h]

theorem getCell_markupStepRow_ne {cols : List String} {r : PdRow} {c : String}
    (h : c ≠ "markup_percentage") :
    getCell (markupStepRow cols r) c = getCell r c := by
  simp only [markupStepRow]
  split_ifs <;> simp [getCell_setCell_ne h]

theorem getCell_cbpaStepRow_ne {cols : List String} {r : PdRow} {c : String}
    (h : c ≠ "cost_basis_per_acre") :
    getCell (cbpaStepRow cols r) c = getCell r c := by
  simp only [cbpaStepRow]
  split_ifs <;> simp [getCell_setCell_ne h]

theorem getCell_polpStepRow_ne {cols : List String} {r : PdRow} {c : String}
    (h : c ≠ "percent_of_initial_listing") :
    getCell (polpStepRow cols r) c = getCell r c := by
  simp only [polpStepRow]
  split_ifs <;> simp [getCell_setCell_ne h]

theorem getCell_missingStepRow_ne {r : PdRow} {c : String}
    (h : c ≠ "missing_information") :
    getCell (missingStepRow r) c = getCell r c := by
  unfold missingStepRow
  simp [getCell_setCell_ne h]

/-- C1: for every price input, `calc_price_reductions` returns 0 on NaN and on
an exactly-zero price, and otherwise `(9 - d) mod 10` where `d` is the final
decimal digit of the integer part of the price; the result is a natural number
(hence non-negative), and in particular 125000 gives 9 reductions and 124999
gives 0. -/
theorem C1_price_reductions_formula :
    calc_price_reductions none = 0 ∧
    (∀ p : ℚ, calc_price_reductions (some p) =
      if p = 0 then 0 else (9 - (ratTrunc p).natAbs % 10) % 10) ∧
    calc_price_reductions (some 125000) = 9 ∧
    calc_price_reductions (some 124999) = 0 := by
  refine ⟨rfl, ?_, by decide, by decide⟩
  intro p
  by_cases hp : p = 0
  · simp [calc_price_reductions, hp]
  · simp only [calc_price_reductions, hp, if_false]
    have hlt : (ratTrunc p).natAbs % 10 < 10 := Nat.mod_lt _ (by norm_num)
    have hmap : ∀ d < 10, reduction_map d = (9 - d) % 10 := by decide
    exact hmap _ hlt

/-- C4 counterexample: with processing time 0 and a purchase date parsing to
time 2 (two days in the future), `calculate_days_held` returns -2, a negative
day count — refuting the claim that the result is always a non-negative
integer. -/
theorem C4_future_date_counterexample :
    calculate_days_held 0 (fun _ => some 2) (some (Value.str "2027-01-01")) = some (-2) ∧
    ((-2 : ℤ) < 0) := by
  constructor
  · show some ⌊(0 : ℚ) - 2⌋ = some (-2)
    norm_num
  · norm_num

/-- C4 (amended): `calculate_days_held` returns null when the purchase-date
cell is absent, NaN, or unparseable, and otherwise the floor of the elapsed
days from the purchase date to the processing moment; that count is
non-negative whenever the purchase date is not after the processing moment. -/
theorem C4_days_held_contract (now : ℚ) (parseDate : Value → Option ℚ) :
    calculate_days_held now parseDate none = none ∧
    calculate_days_held now parseDate (some Value.null) = none ∧
    (∀ v, parseDate v = none → calculate_days_held now parseDate (some v) = none) ∧
    (∀ v t, v ≠ Value.null → parseDate v = some t →
      calculate_days_held now parseDate (some v) = some ⌊now - t⌋ ∧
      (t ≤ now → 0 ≤ ⌊now - t⌋)) := by
  refine ⟨rfl, rfl, ?_, ?_⟩
  · intro v hv
    cases v with
    | null => rfl
    | str s => simp [calculate_days_held, hv]
    | num q => simp [calculate_days_held, hv]
  · intro v t hv hp
    cases v with
    | null => exact absurd rfl hv
    | str s =>
      refine ⟨by simp [calculate_days_held, hp], fun ht => ?_⟩
      exact Int.floor_nonneg.mpr (by linarith)
    | num q =>
      refine ⟨by simp [calculate_days_held, hp], fun ht => ?_⟩
      exact Int.floor_nonneg.mpr (by linarith)

/-- Witness for C4 (amended): a purchase two days before a processing moment
at time 5 yields the non-negative day count 2. -/
theorem C4_days_held_contract_witness :
    calculate_days_held 5 (fun _ => some 3) (some (Value.num 7)) = some ⌊(5 : ℚ) - 3⌋ ∧
    0 ≤ ⌊(5 : ℚ) - 3⌋ :=
  ⟨((C4_days_held_contract 5 (fun _ => some 3)).2.2.2 (Value.num 7) 3 (by decide) rfl).1,
   ((C4_days_held_contract 5 (fun _ => some 3)).2.2.2 (Value.num 7) 3 (by decide) rfl).2
     (by norm_num)⟩

/-- C5 counterexample: on the status set {"Under Contract", "Purchased",
"Zzz-Unknown", "Listed"}, the hierarchy enumeration is NOT
[Purchased, Listed, Under Contract, Zzz-Unknown]: the unknown status
"Zzz-Unknown" is dropped, not appended. -/
theorem C5_unknown_status_counterexample :
    ordered_statuses ["Under Contract", "Purchased", "Zzz-Unknown", "Listed"] ≠
      ["Purchased", "Listed", "Under Contract", "Zzz-Unknown"] := by decide

/-- C5 (amended): the hierarchical aggregator enumerates exactly the statuses
of the fixed priority list Purchased, Listed, Under Contract, Off Market that
are present in the data, in that priority order; any other status value is
omitted from the enumeration.  In particular {"Under Contract", "Purchased",
"Zzz-Unknown", "Listed"} enumerates as Purchased, Listed, Under Contract. -/
theorem C5_status_enumeration :
    (∀ available_statuses : List String,
      (ordered_statuses available_statuses).Sublist status_order ∧
      (∀ s, s ∈ ordered_statuses available_statuses ↔
        s ∈ status_order ∧ available_statuses.contains s = true)) ∧
    ordered_statuses ["Under Contract", "Purchased", "Zzz-Unknown", "Listed"] =
      ["Purchased", "Listed", "Under Contract"] := by
  refine ⟨fun available_statuses => ⟨List.filter_sublist _, fun s => ?_⟩, by decide⟩
  simp [ordered_statuses, List.mem_filter]

/-- C6: for the record with cost_basis = 100000, asking_price = 150000,
acres = 50 and original_listing_price = 180000, the derivation pipeline
produces current_margin = 50000, current_margin_pct = 100/3 (= 33.33…),
markup_percentage = 50, price_per_acre = 3000, cost_basis_per_acre = 2000 and
percent_of_initial_listing = 250/3 (= 83.33…). -/
theorem C6_end_to_end_derivation :
    getCell (processRow c6cols 0 (fun _ => none) c6row) "current_margin" =
      some (Value.num 50000) ∧
    getCell (processRow c6cols 0 (fun _ => none) c6row) "current_margin_pct" =
      some (Value.num (100 / 3)) ∧
    getCell (processRow c6cols 0 (fun _ => none) c6row) "markup_percentage" =
      some (Value.num 50) ∧
    getCell (processRow c6cols 0 (fun _ => none) c6row) "price_per_acre" =
      some (Value.num 3000) ∧
    getCell (processRow c6cols 0 (fun _ => none) c6row) "cost_basis_per_acre" =
      some (Value.num 2000) ∧
    getCell (processRow c6cols 0 (fun _ => none) c6row) "percent_of_initial_listing" =
      some (Value.num (250 / 3)) := by
  refine ⟨?_, ?_, ?_, ?_, ?_, ?_⟩ <;>
    norm_num +decide [processRow, missingStepRow, polpStepRow, cbpaStepRow, markupStepRow,
      ppaStepRow, marginStepRow, priceStepRow, numericStepRow, daysStepRow, countyStepRow,
      numeric_columns, calc_price_reductions, calculate_days_held, ratTrunc, reduction_map,
      numCellQ, toNumericQ, getNum, getCell, setCell, countyCell, c6cols, c6row,
      check_missing_information, missingList, requiredFields, isMissingValue, joinSepStr,
      joinSepChars]

/-- C7: the county normalization step rewrites a present county column cell to
`countyCell`, which is never null (always a string): a NaN or absent county
becomes the sentinel "Unknown County", every value is title-cased, and a
county literally named "Unknown" stays "Unknown", a label distinct from
"Unknown County". -/
theorem C7_county_normalization :
    (∀ cols r, cols.contains "custom.All_County" = true →
      getCell (countyStepRow cols r) "custom.All_County" =
        some (countyCell (getCell r "custom.All_County"))) ∧
    countyCell none = Value.str "Unknown County" ∧
    countyCell (some Value.null) = Value.str "Unknown County" ∧
    (∀ s, countyCell (some (Value.str s)) = Value.str (pyTitle s)) ∧
    (∀ v, ∃ s, countyCell v = Value.str s) ∧
    countyCell (some (Value.str "ANDERSON county")) = Value.str "Anderson County" ∧
    countyCell (some (Value.str "Unknown")) = Value.str "Unknown" ∧
    ("Unknown County" : String) ≠ "Unknown" := by
  refine ⟨?_, by decide, by decide, fun s => rfl, ?_, by decide, by decide, by decide⟩
  · intro cols r hc
    have hm : "custom.All_County" ∈ cols := by simpa using hc
    simp [countyStepRow, hm, getCell_setCell_self]
  · intro v
    exact ⟨_, rfl⟩

/-- Witness for C7: on a one-column table whose county cell is absent, the
normalization step stores the title-cased sentinel. -/
theorem C7_county_normalization_witness :
    getCell (countyStepRow ["custom.All_County"] []) "custom.All_County" =
      some (countyCell none) :=
  C7_county_normalization.1 ["custom.All_County"] [] (by decide)

/-- C9: `process_data` leaves its input dataframe unchanged — the `df` slot of
its final state is the input table — and all derived columns live only in the
fresh `processed` table obtained from the deep copy of line 82. -/
theorem C9_no_input_mutation (now : ℚ) (parseDate : Value → Option ℚ) (df : Table) :
    (process_data now parseDate df).df = df ∧
    (process_data now parseDate df).processed = processTable now parseDate df ∧
    (process_data now parseDate df).processed.rows =
      df.rows.map (processRow df.cols now parseDate) :=
  ⟨rfl, rfl, rfl⟩

theorem missing_string_ne_complete (s : String) :
    ("❌ Missing: " ++ s) ≠ "✅ Complete" := by
  intro h
  have h1 : ("❌ Missing: " ++ s).data.head? = some '❌' := by
    rw [String.data_append]
    rfl
  rw [h] at h1
  exact absurd h1 (by decide)

theorem missingList_eq_nil_iff (row : PdRow) :
    missingList row = [] ↔
      ∀ fk ∈ requiredFields, ∃ v, getCell row fk.1 = some v ∧ isMissingValue fk.1 v = false := by
  unfold missingList
  rw [List.filterMap_eq_nil_iff]
  refine forall₂_congr fun fk _ => ?_
  cases h : getCell row fk.1 with
  | none => simp [h]
  | some v =>
    by_cases hm : isMissingValue fk.1 v
    · simp [h, hm]
    · simp [h, hm]

/-- C2 counterexample: `recC2` has every required field present and filled, but
its cost basis is the placeholder string "Unknown"; the checker nevertheless
reports "✅ Complete", refuting the claim that a placeholder sentinel in any
required field (including cost basis) prevents the Complete status. -/
theorem C2_cost_basis_sentinel_counterexample :
    check_missing_information recC2 = "✅ Complete" ∧
    getCell recC2 "custom.Asset_Cost_Basis" = some (Value.str "Unknown") ∧
    isMissingValue "custom.All_State" (Value.str "Unknown") = true := by
  refine ⟨by decide, by decide, by decide⟩

/-- C2 (amended): the checker returns "✅ Complete" iff every required-field
column is present in the record with a value that passes its per-field missing
test: non-null, non-empty, and — for every field except cost basis — not
"Unknown"/"Unknown County", while for cost basis — and only there — a value of
exactly 0 counts as missing instead of the sentinel strings.  An absent column
simply counts as missing (no exception). -/
theorem C2_complete_iff (row : PdRow) :
    check_missing_information row = "✅ Complete" ↔
      ∀ fk ∈ requiredFields, ∃ v, getCell row fk.1 = some v ∧ isMissingValue fk.1 v = false := by
  rw [← missingList_eq_nil_iff]
  by_cases h : missingList row = []
  · simp [check_missing_information, h]
  · have hne : (missingList row).isEmpty = false := by simpa [List.isEmpty_iff] using h
    simp only [check_missing_information, hne, Bool.false_eq_true, if_false]
    exact iff_of_false (missing_string_ne_complete _) h

/-- Witness for C2 (amended): `recC2` satisfies the right-hand side of the
characterization, so the checker reports it Complete. -/
theorem C2_complete_iff_witness :
    check_missing_information recC2 = "✅ Complete" :=
  (C2_complete_iff recC2).mpr (by decide)

theorem fmtCurrency_ne_na (q : ℚ) : fmtCurrency q ≠ "N/A" := by
  intro h
  have h1 : (fmtCurrency q).data.head? = some '$' := rfl
  rw [h] at h1
  exact absurd h1 (by decide)

theorem fmtPct_ne_na (q : ℚ) : fmtPct q ≠ "N/A" := by
  intro h
  have h1 : '%' ∈ (fmtPct q).data := by
    show '%' ∈ (toString (pyRound q)).data ++ ['%']
    exact List.mem_append_right _ (by simp)
  rw [h] at h1
  exact absurd h1 (by decide)

/-- C8 counterexample: a profit margin of exactly 0 — a non-positive value —
renders as "$0", not "N/A", refuting the claim that every numeric/currency
field renders "N/A" whenever its value is non-positive (and that none renders
as 0). -/
theorem C8_profit_margin_zero_counterexample :
    fmt_profit_margin (some 0) = "$0" ∧ ("$0" : String) ≠ "N/A" := by
  refine ⟨by decide, by decide⟩

/-- C8 (amended): among the inventory-report cells, cost basis, current price,
price per acre, cost per acre and original price render "N/A" exactly when the
value is absent or non-positive; profit margin, margin %, markup % and %OLP
render "N/A" exactly when the value is absent, and otherwise render the
formatted (possibly zero or negative) number. -/
theorem C8_na_rendering (v : Option ℚ) :
    (fmt_cost_basis v = "N/A" ↔ optNonPos v) ∧
    (fmt_asking_price v = "N/A" ↔ optNonPos v) ∧
    (fmt_price_per_acre v = "N/A" ↔ optNonPos v) ∧
    (fmt_cost_per_acre v = "N/A" ↔ optNonPos v) ∧
    (fmt_original_price v = "N/A" ↔ optNonPos v) ∧
    (fmt_profit_margin v = "N/A" ↔ v = none) ∧
    (fmt_margin_pct v = "N/A" ↔ v = none) ∧
    (fmt_markup v = "N/A" ↔ v = none) ∧
    (fmt_percent_olp v = "N/A" ↔ v = none) := by
  cases v with
  | none =>
    simp [fmt_cost_basis, fmt_asking_price, fmt_price_per_acre, fmt_cost_per_acre,
      fmt_original_price, fmt_profit_margin, fmt_margin_pct, fmt_markup, fmt_percent_olp,
      optNonPos]
  | some q =>
    have hnp : optNonPos (some q) ↔ q ≤ 0 := by simp [optNonPos]
    by_cases hq : q > 0
    · simp [fmt_cost_basis, fmt_asking_price, fmt_price_per_acre, fmt_cost_per_acre,
        fmt_original_price, fmt_profit_margin, fmt_margin_pct, fmt_markup, fmt_percent_olp,
        hq, hnp, fmtCurrency_ne_na, fmtPct_ne_na, not_le.mpr hq]
    · simp [fmt_cost_basis, fmt_asking_price, fmt_price_per_acre, fmt_cost_per_acre,
        fmt_original_price, fmt_profit_margin, fmt_margin_pct, fmt_markup, fmt_percent_olp,
        hq, hnp, fmtCurrency_ne_na, fmtPct_ne_na, le_of_not_lt hq]

/-- Witness for C8 (amended): an absent profit margin renders "N/A". -/
theorem C8_na_rendering_witness : fmt_profit_margin none = "N/A" :=
  (C8_na_rendering none).2.2.2.2.2.1.mpr rfl

theorem getNum_missingStepRow_ne {r : PdRow} {c : String}
    (h : c ≠ "missing_information") :
    getNum (missingStepRow r) c = getNum r c := by
  unfold getNum
  rw [getCell_missingStepRow_ne h]

theorem getNum_polpStepRow_ne {cols : List String} {r : PdRow} {c : String}
    (h : c ≠ "percent_of_initial_listing") :
    getNum (polpStepRow cols r) c = getNum r c := by
  unfold getNum
  rw [getCell_polpStepRow_ne h]

theorem getNum_cbpaStepRow_ne {cols : List String} {r : PdRow} {c : String}
    (h : c ≠ "cost_basis_per_acre") :
    getNum (cbpaStepRow cols r) c = getNum r c := by
  unfold getNum
  rw [getCell_cbpaStepRow_ne h]

theorem getNum_markupStepRow_ne {cols : List String} {r : PdRow} {c : String}
    (h : c ≠ "markup_percentage") :
    getNum (markupStepRow cols r) c = getNum r c := by
  unfold getNum
  rw [getCell_markupStepRow_ne h]

theorem getNum_ppaStepRow_ne {cols : List String} {r : PdRow} {c : String}
    (h : c ≠ "price_per_acre") :
    getNum (ppaStepRow cols r) c = getNum r c := by
  unfold getNum
  rw [getCell_ppaStepRow_ne h]

theorem getNum_marginStepRow_ne {cols : List String} {r : PdRow} {c : String}
    (h1 : c ≠ "current_margin") (h2 : c ≠ "current_margin_pct") :
    getNum (marginStepRow cols r) c = getNum r c := by
  unfold getNum
  rw [getCell_marginStepRow_ne h1 h2]

/-- C3: in the processed row, each of the four ratio fields is exactly 0
whenever its denominator is 0 — price_per_acre and cost_basis_per_acre when
surveyed acres is 0, current_margin_pct when the asking price is 0,
markup_percentage when the cost basis is 0, percent_of_initial_listing when
the original listing price is 0 — uniformly for every column configuration and
record; no exception, infinity or NaN. -/
theorem C3_zero_denominator_guard (cols : List String) (now : ℚ)
    (parseDate : Value → Option ℚ) (r : PdRow) :
    (getNum (processRow cols now parseDate r) "custom.All_Asset_Surveyed_Acres" = 0 →
      getCell (processRow cols now parseDate r) "price_per_acre" = some (Value.num 0) ∧
      getCell (processRow cols now parseDate r) "cost_basis_per_acre" = some (Value.num 0)) ∧
    (getNum (processRow cols now parseDate r) "primary_opportunity_value" = 0 →
      getCell (processRow cols now parseDate r) "current_margin_pct" = some (Value.num 0)) ∧
    (getNum (processRow cols now parseDate r) "custom.Asset_Cost_Basis" = 0 →
      getCell (processRow cols now parseDate r) "markup_percentage" = some (Value.num 0)) ∧
    (getNum (processRow cols now parseDate r) "custom.Asset_Original_Listing_Price" = 0 →
      getCell (processRow cols now parseDate r) "percent_of_initial_listing" = some (Value.num 0)) := by
  unfold processRow
  refine ⟨?_, ?_, ?_, ?_⟩
  · intro h
    have h6 := h
    rw [getNum_missingStepRow_ne (by decide), getNum_polpStepRow_ne (by decide),
      getNum_cbpaStepRow_ne (by decide)] at h6
    have h4 := h6
    rw [getNum_markupStepRow_ne (by decide), getNum_ppaStepRow_ne (by decide)] at h4
    constructor
    · rw [getCell_missingStepRow_ne (by decide), getCell_polpStepRow_ne (by decide),
        getCell_cbpaStepRow_ne (by decide), getCell_markupStepRow_ne (by decide)]
      simp only [ppaStepRow]
      split_ifs with hc hm
      · exact absurd (by rw [getNum_setCell_ne (by decide)]; exact h4) hm
      · exact getCell_setCell_self _ _ _
      · exact getCell_setCell_self _ _ _
    · rw [getCell_missingStepRow_ne (by decide), getCell_polpStepRow_ne (by decide)]
      simp only [cbpaStepRow]
      split_ifs with hc hm
      · exact absurd (by rw [getNum_setCell_ne (by decide)]; exact h6) hm
      · exact getCell_setCell_self _ _ _
      · exact getCell_setCell_self _ _ _
  · intro h
    rw [getNum_missingStepRow_ne (by decide), getNum_polpStepRow_ne (by decide),
      getNum_cbpaStepRow_ne (by decide), getNum_markupStepRow_ne (by decide),
      getNum_ppaStepRow_ne (by decide),
      getNum_marginStepRow_ne (by decide) (by decide)] at h
    rw [getCell_missingStepRow_ne (by decide), getCell_polpStepRow_ne (by decide),
      getCell_cbpaStepRow_ne (by decide), getCell_markupStepRow_ne (by decide),
      getCell_ppaStepRow_ne (by decide)]
    simp only [marginStepRow]
    split_ifs with hc hm
    · exact absurd (by rw [getNum_setCell_ne (by decide), getNum_setCell_ne (by decide),
        getNum_setCell_ne (by decide)]; exact h) hm
    · rw [getCell_setCell_ne (by decide)]
      exact getCell_setCell_self _ _ _
    · exact getCell_setCell_self _ _ _
  · intro h
    rw [getNum_missingStepRow_ne (by decide), getNum_polpStepRow_ne (by decide),
      getNum_cbpaStepRow_ne (by decide), getNum_markupStepRow_ne (by decide)] at h
    rw [getCell_missingStepRow_ne (by decide), getCell_polpStepRow_ne (by decide),
      getCell_cbpaStepRow_ne (by decide)]
    simp only [markupStepRow]
    split_ifs with hc hm
    · exact absurd (by rw [getNum_setCell_ne (by decide)]; exact h) hm
    · exact getCell_setCell_self _ _ _
    · exact getCell_setCell_self _ _ _
  · intro h
    rw [getNum_missingStepRow_ne (by decide), getNum_polpStepRow_ne (by decide)] at h
    rw [getCell_missingStepRow_ne (by decide)]
    simp only [polpStepRow]
    split_ifs with hc hm
    · exact absurd (by rw [getNum_setCell_ne (by decide)]; exact h) hm
    · exact getCell_setCell_self _ _ _
    · exact getCell_setCell_self _ _ _

/-- Witness for C3: a one-row table holding all four numeric columns with
acres, price, cost and original listing price all 0 yields 0 for all four
ratio fields. -/
theorem C3_zero_denominator_guard_witness :
    getCell (processRow c6cols 0 (fun _ => none)
        [("primary_opportunity_value", Value.num 0),
         ("custom.Asset_Cost_Basis", Value.num 0),
         ("custom.All_Asset_Surveyed_Acres", Value.num 0),
         ("custom.Asset_Original_Listing_Price", Value.num 0)])
      "price_per_acre" = some (Value.num 0) :=
  ((C3_zero_denominator_guard c6cols 0 (fun _ => none)
      [("primary_opportunity_value", Value.num 0),
       ("custom.Asset_Cost_Basis", Value.num 0),
       ("custom.All_Asset_Surveyed_Acres", Value.num 0),
       ("custom.Asset_Original_Listing_Price", Value.num 0)]).1
    (by norm_num +decide [processRow, missingStepRow, polpStepRow, cbpaStepRow,
      markupStepRow, ppaStepRow, marginStepRow, priceStepRow, numericStepRow, daysStepRow,
      countyStepRow, numeric_columns, calc_price_reductions, calculate_days_held, ratTrunc,
      reduction_map, numCellQ, toNumericQ, getNum, getCell, setCell, countyCell, c6cols,
      check_missing_information, missingList, requiredFields, isMissingValue, joinSepStr,
      joinSepChars])).1

theorem isPrefixOf_append_self (l t : List Char) : l.isPrefixOf (l ++ t) = true := by
  induction l with
  | nil => simp [List.isPrefixOf]
  | cons a as ih => simp [List.isPrefixOf, ih]

theorem isPrefixOf_cons_head {a b : Char} {as bs : List Char}
    (h : (a :: as).isPrefixOf (b :: bs) = true) : a = b := by
  have he : (a :: as).isPrefixOf (b :: bs) = (a == b && as.isPrefixOf bs) := rfl
  rw [he, Bool.and_eq_true] at h
  exact eq_of_beq h.1

theorem pyReplaceChars_no_occ {l : List Char} (h : '❌' ∉ l) :
    pyReplaceChars "❌ Missing: ".data [] l = l := by
  induction l with
  | nil => simp [pyReplaceChars]
  | cons c rest ih =>
    have hc : c ≠ '❌' := fun hh => h (by rw [hh]; exact List.mem_cons_self _ _)
    have hrest : '❌' ∉ rest := fun hh => h (List.mem_cons_of_mem _ hh)
    rw [pyReplaceChars, if_neg, ih hrest]
    intro hcond
    exact hc (isPrefixOf_cons_head hcond.2).symm

theorem pyReplaceChars_strip {rest : List Char} (h : '❌' ∉ rest) :
    pyReplaceChars "❌ Missing: ".data [] ("❌ Missing: ".data ++ rest) = rest := by
  rw [show "❌ Missing: ".data ++ rest = '❌' :: (" Missing: ".data ++ rest) from rfl]
  rw [pyReplaceChars, if_pos]
  · rw [List.nil_append,
      show "❌ Missing: ".data.length - 1 = (" Missing: ".data).length from rfl,
      List.drop_left]
    exact pyReplaceChars_no_occ h
  · exact ⟨by decide, isPrefixOf_append_self "❌ Missing: ".data rest⟩

theorem mem_joinSepChars {c : Char} :
    ∀ {L : List (List Char)}, c ∈ joinSepChars L → c = ',' ∨ c = ' ' ∨ ∃ x ∈ L, c ∈ x := by
  intro L
  induction L with
  | nil => intro h; exact absurd h (by simp [joinSepChars])
  | cons a L ih =>
    cases L with
    | nil =>
      intro h
      rw [joinSepChars] at h
      exact Or.inr (Or.inr ⟨a, by simp, h⟩)
    | cons b M =>
      intro h
      rw [joinSepChars] at h
      rcases List.mem_append.mp h with ha | htail
      · exact Or.inr (Or.inr ⟨a, by simp, ha⟩)
      · rcases htail with _ | ⟨_, htail⟩
        · exact Or.inl rfl
        · rcases htail with _ | ⟨_, htail⟩
          · exact Or.inr (Or.inl rfl)
          · rcases ih htail with h1 | h2 | ⟨x, hx, hcx⟩
            · exact Or.inl h1
            · exact Or.inr (Or.inl h2)
            · exact Or.inr (Or.inr ⟨x, by simp [hx], hcx⟩)

theorem charSplitAux_append_no_sep (a : List Char) (cur r : List Char) (ha : ',' ∉ a) :
    charSplitAux ',' cur (a ++ r) = charSplitAux ',' (cur ++ a) r := by
  induction a generalizing cur with
  | nil => simp
  | cons c a2 ih =>
    have hc : ¬c = ',' := fun hh => ha (by rw [← hh]; exact List.mem_cons_self _ _)
    have ha2 : ',' ∉ a2 := fun hh => ha (List.mem_cons_of_mem _ hh)
    rw [List.cons_append, charSplitAux, if_neg hc, ih _ ha2]
    simp

theorem charSplitAux_cons_sep (cur r : List Char) :
    charSplitAux ',' cur (',' :: r) = cur :: charSplitAux ',' [] r := by
  simp [charSplitAux]

theorem charSplitAux_joinSep (L : List (List Char)) :
    ∀ (a cur : List Char), ',' ∉ a → (∀ x ∈ L, ',' ∉ x) →
      charSplitAux ',' cur (joinSepChars (a :: L)) =
        (cur ++ a) :: L.map (fun x => ' ' :: x) := by
  induction L with
  | nil =>
    intro a cur ha _
    rw [joinSepChars, show a = a ++ ([] : List Char) from (List.append_nil a).symm,
      charSplitAux_append_no_sep a cur [] ha]
    simp [charSplitAux]
  | cons b M ih =>
    intro a cur ha hL
    rw [show joinSepChars (a :: b :: M) = a ++ ',' :: ' ' :: joinSepChars (b :: M) from rfl,
      charSplitAux_append_no_sep a cur _ ha, charSplitAux_cons_sep]
    congr 1
    rw [show charSplitAux ',' [] (' ' :: joinSepChars (b :: M)) =
        charSplitAux ',' [' '] (joinSepChars (b :: M)) from by simp [charSplitAux]]
    rw [ih b [' '] (hL b (by simp)) (fun x hx => hL x (by simp [hx]))]
    simp

theorem trimChars_space_cons (x : List Char) : trimChars (' ' :: x) = trimChars x := by
  simp +decide [trimChars, List.dropWhile_cons]

theorem mk_data (s : String) : String.mk s.data = s := rfl

theorem map_trim_space (L : List String) (h : ∀ s ∈ L, trimChars s.data = s.data) :
    L.map (fun s => String.mk (trimChars (' ' :: s.data))) = L := by
  induction L with
  | nil => rfl
  | cons b M ih =>
    rw [List.map_cons, trimChars_space_cons, h b (by simp), mk_data,
      ih (fun s hs => h s (by simp [hs]))]

theorem map_trim_split_join (l : List String) (hne : l ≠ [])
    (hgood : ∀ s ∈ l, ',' ∉ s.data ∧ trimChars s.data = s.data) :
    (charSplit ',' (joinSepChars (l.map String.data))).map
      (fun cs => String.mk (trimChars cs)) = l := by
  cases l with
  | nil => exact absurd rfl hne
  | cons a L =>
    unfold charSplit
    rw [show (a :: L).map String.data = a.data :: L.map String.data from rfl]
    rw [charSplitAux_joinSep (L.map String.data) a.data [] (hgood a (by simp)).1
      (fun x hx => by
        obtain ⟨s, hs, rfl⟩ := List.mem_map.mp hx
        exact (hgood s (by simp [hs])).1)]
    rw [List.nil_append, List.map_cons, List.map_map, List.map_map]
    rw [(hgood a (by simp)).2, mk_data]
    congr 1
    exact map_trim_space L (fun s hs => (hgood s (by simp [hs])).2)

theorem labels_good :
    ∀ s ∈ requiredFields.map Prod.snd,
      ',' ∉ s.data ∧ '❌' ∉ s.data ∧ trimChars s.data = s.data := by decide

theorem missingList_mem {row : PdRow} {s : String} (h : s ∈ missingList row) :
    s ∈ requiredFields.map Prod.snd := by
  unfold missingList at h
  obtain ⟨fk, hfk, hsome⟩ := List.mem_filterMap.mp h
  have hs : fk.2 = s := by
    cases hcell : getCell row fk.1 with
    | none =>
      rw [hcell] at hsome
      exact Option.some.inj hsome
    | some v =>
      rw [hcell] at hsome
      by_cases hm : isMissingValue fk.1 v
      · simp only [hm, if_true] at hsome
        exact Option.some.inj hsome
      · simp [hm] at hsome
  rw [← hs]
  exact List.mem_map_of_mem _ hfk

theorem filterMap_sublist_map {α β : Type} (l : List α) (f : α → Option β) (g : α → β)
    (h : ∀ a ∈ l, f a = none ∨ f a = some (g a)) :
    (l.filterMap f).Sublist (l.map g) := by
  induction l with
  | nil => simp
  | cons a t ih =>
    rcases h a (by simp) with ha | ha
    · simp only [List.filterMap_cons, ha, List.map_cons]
      exact (ih fun x hx => h x (by simp [hx])).cons _
    · simp only [List.filterMap_cons, ha, List.map_cons]
      exact (ih fun x hx => h x (by simp [hx])).cons₂ _

theorem missingList_sublist (row : PdRow) :
    (missingList row).Sublist (requiredFields.map Prod.snd) := by
  refine filterMap_sublist_map _ _ _ (fun fk _ => ?_)
  cases hcell : getCell row fk.1 with
  | none => exact Or.inr rfl
  | some v =>
    by_cases hm : isMissingValue fk.1 v
    · exact Or.inr (by simp [hm])
    · exact Or.inl (by simp [hm])

/-- C10: the completeness checker's output has exactly one of two shapes — the
exact complete string "✅ Complete" (iff nothing is missing) or "❌ Missing: "
followed by the comma-separated non-empty list of missing labels, a sublist of
the fixed required-field label order — and the checklist generator's parsing
(prefix test, `str.replace` strip, comma split, per-piece strip) recovers
exactly that label list, while the complete string parses to nothing. -/
theorem C10_missing_info_roundtrip (row : PdRow) :
    (missingList row = [] →
      check_missing_information row = "✅ Complete" ∧
      parse_missing_info (check_missing_information row) = none) ∧
    (missingList row ≠ [] →
      (missingList row).Sublist (requiredFields.map Prod.snd) ∧
      check_missing_information row = "❌ Missing: " ++ joinSepStr (missingList row) ∧
      parse_missing_info (check_missing_information row) = some (missingList row)) := by
  constructor
  · intro h
    have hc : check_missing_information row = "✅ Complete" := by
      simp [check_missing_information, h]
    exact ⟨hc, by rw [hc]; rfl⟩
  · intro h
    have hgood : ∀ s ∈ missingList row,
        ',' ∉ s.data ∧ '❌' ∉ s.data ∧ trimChars s.data = s.data :=
      fun s hs => labels_good s (missingList_mem hs)
    have hchk : check_missing_information row =
        "❌ Missing: " ++ joinSepStr (missingList row) := by
      have hne : (missingList row).isEmpty = false := by simpa [List.isEmpty_iff] using h
      simp [check_missing_information, hne]
    refine ⟨missingList_sublist row, hchk, ?_⟩
    rw [hchk]
    have hnomem : '❌' ∉ joinSepChars ((missingList row).map String.data) := by
      intro hmem
      rcases mem_joinSepChars hmem with h1 | h2 | ⟨x, hx, hcx⟩
      · exact absurd h1 (by decide)
      · exact absurd h2 (by decide)
      · obtain ⟨s, hs, rfl⟩ := List.mem_map.mp hx
        exact (hgood s hs).2.1 hcx
    have hdata : ("❌ Missing: " ++ joinSepStr (missingList row)).data =
        "❌ Missing: ".data ++ joinSepChars ((missingList row).map String.data) := by
      rw [String.data_append]
      rfl
    unfold parse_missing_info
    rw [hdata, if_pos (isPrefixOf_append_self _ _), pyReplaceChars_strip hnomem]
    rw [map_trim_split_join (missingList row) h
      (fun s hs => ⟨(hgood s hs).1, (hgood s hs).2.2⟩)]

/-- Witness for C10: the empty record misses every required field; the checker
output parses back to exactly its missing-label list. -/
theorem C10_missing_info_roundtrip_witness :
    parse_missing_info (check_missing_information ([] : PdRow)) =
      some (missingList ([] : PdRow)) :=
  ((C10_missing_info_roundtrip []).2 (by decide)).2.2

end LandPortfolio
